import Mathlib

/-!
Local-first feedback store (`seven-days/feedback.js`).

A shallow embedding of the storage and reconciliation code of `feedback.js`:
`getAll`, `saveLocal`, `getForPage`, `getSavedName`, `saveName`,
`syncToSupabase`, `fetchFromSupabase`, the submit handler registered in
`createWidget`, and the merge performed by `init`.

Platform functions are modelled by what they return:
* `localStorage` is a record with the two keys the script uses;
* `JSON.parse` is represented by classifying the text of a slot (`Slot`): text
  that makes it throw, or the value it returns;
* `JSON.stringify` followed by a later `JSON.parse` is the identity on arrays
  of entries;
* the DOM work of `createWidget`, `renderList`, `updateCount` is left out
  except for the storage reads these functions perform.
-/

namespace Feedback

/-! ## Data model -/

/-- The record built by the submit handler (lines 177 to 184). -/
structure Entry where
  id : String
  page : String
  name : String
  message : String
  created_at : String
  ua : String
deriving DecidableEq, Repr

/-- The values `JSON.parse` can return for the entries slot. Every value that is
not an array behaves the same under `.push`, `.filter` and `.map` (none of them
is callable there), so an object carries no payload. -/
inductive JsValue where
  | null
  | bool (b : Bool)
  | number (n : Int)
  | string (s : String)
  | object
  | array (items : List Entry)
deriving DecidableEq, Repr

/-- What `localStorage.getItem(LS_KEY)` holds, by what `JSON.parse` does with it:
nothing (`getItem` returns `null`), text on which `JSON.parse` throws (the empty
string, which is falsy and replaced by the text of an empty array, behaves the
same), or text that parses to the value `v`. -/
inductive Slot where
  | absent
  | invalid (raw : String)
  | json (v : JsValue)
deriving DecidableEq, Repr

/-- The only exception the modelled code can raise: calling `.push`, `.filter`
or `.map` on a value that has no such method. -/
inductive JsError where
  | typeError
deriving DecidableEq, Repr

/-- The two `localStorage` keys of the script: `sdl_feedback` (`LS_KEY`) and
`sdl_username` (`LS_NAME`). -/
structure Storage where
  sdl_feedback : Slot
  sdl_username : Option String
deriving DecidableEq, Repr

/-- The two configuration constants (lines 13 and 14). -/
structure Config where
  SUPABASE_URL : Option String
  SUPABASE_ANON : Option String
deriving DecidableEq, Repr

/-- The configuration as shipped: both constants are `null`. -/
def shippedConfig : Config := ⟨none, none⟩

/-- JavaScript truthiness of a constant that is `null` or a string. -/
def truthy : Option String → Bool
  | none => false
  | some s => decide (s ≠ "")

/-- Storage together with a record of what reached the remote gateway:
`syncCalls` lists the entries `syncToSupabase` was called with, `posts` the
entries for which it issued a `POST` through `fetch`. -/
structure World where
  storage : Storage
  syncCalls : List Entry
  posts : List Entry
deriving DecidableEq, Repr

/-- A storage whose entries slot holds the JSON text of the array `L`. -/
def stored (L : List Entry) (nm : Option String) : Storage :=
  ⟨Slot.json (JsValue.array L), nm⟩

/-- The ids of a sequence of entries, in order. -/
def ids (L : List Entry) : List String := L.map (fun e => e.id)

/-! ## Storage (lines 25 to 46) -/

/-- `getAll` (lines 25 to 28): parse the slot, or the text of an empty array
when the slot is absent; a parse error yields an empty array. -/
def getAll : Slot → JsValue
  | Slot.absent => JsValue.array []
  | Slot.invalid _ => JsValue.array []
  | Slot.json v => v

/-- `saveLocal` (lines 30 to 34): push the entry onto what `getAll` returned and
write the result back. -/
def saveLocal (st : Storage) (entry : Entry) : Except JsError Storage :=
  match getAll st.sdl_feedback with
  | JsValue.array all => Except.ok { st with sdl_feedback := Slot.json (JsValue.array (all ++ [entry])) }
  | _ => Except.error JsError.typeError

/-- `getForPage` (lines 36 to 38): filter what `getAll` returned by page. -/
def getForPage (slot : Slot) (page : String) : Except JsError (List Entry) :=
  match getAll slot with
  | JsValue.array all => Except.ok (all.filter (fun e => decide (e.page = page)))
  | _ => Except.error JsError.typeError

/-- `getSavedName` (lines 40 to 42). -/
def getSavedName (st : Storage) : String :=
  match st.sdl_username with
  | none => ""
  | some s => s

/-- `saveName` (lines 44 to 46): an empty name is not written. -/
def saveName (st : Storage) (name : String) : Storage :=
  if name ≠ "" then { st with sdl_username := some name } else st

/-! ## Remote gateway (lines 50 to 75) -/

/-- `syncToSupabase` (lines 50 to 64): return at once when a constant is unset,
otherwise issue one `POST`; a failing request is caught and only logged. -/
def syncToSupabase (cfg : Config) (w : World) (entry : Entry) : World :=
  let w1 := { w with syncCalls := w.syncCalls ++ [entry] }
  if !truthy cfg.SUPABASE_URL || !truthy cfg.SUPABASE_ANON then w1
  else { w1 with posts := w1.posts ++ [entry] }

/-- `fetchFromSupabase` (lines 66 to 75): `null` when a constant is unset;
otherwise what the request for the page yields, where `fetch` gives `none` when
the request or the decoding of its body throws (caught, line 74) or the body is
the JSON value `null`, and the decoded sequence otherwise. -/
def fetchFromSupabase (cfg : Config) (fetch : String → Option (List Entry))
    (page : String) : Option (List Entry) :=
  if !truthy cfg.SUPABASE_URL || !truthy cfg.SUPABASE_ANON then none
  else fetch page

/-! ## Reconciliation (lines 325 to 336) -/

/-- The loop of lines 329 to 334: the set of local ids is computed once, before
the loop, and each remote entry whose id is not in that set is pushed. -/
def mergeRemote (local_ remote : List Entry) : List Entry :=
  let localIds := local_.map (fun e => e.id)
  remote.foldl (fun acc e => if e.id ∈ localIds then acc else acc ++ [e]) local_

/-- Lines 326 to 336 of `init`, given the result of the pull: nothing happens
when the result is `null` or has length zero, otherwise the merged collection
is written back. -/
def sync (st : Storage) (remote : Option (List Entry)) : Except JsError Storage :=
  match remote with
  | none => Except.ok st
  | some [] => Except.ok st
  | some (r :: rs) =>
    match getAll st.sdl_feedback with
    | JsValue.array local_ =>
      Except.ok { st with sdl_feedback := Slot.json (JsValue.array (mergeRemote local_ (r :: rs))) }
    | _ => Except.error JsError.typeError

/-- `init` from line 325 on, for an already resolved page: pull, merge, then
`renderList` and `updateCount`, which both read `getForPage(currentPage)`. -/
def init (cfg : Config) (fetch : String → Option (List Entry)) (st : Storage)
    (currentPage : String) : Except JsError Storage :=
  match sync st (fetchFromSupabase cfg fetch currentPage) with
  | Except.error e => Except.error e
  | Except.ok st1 =>
    match getForPage st1.sdl_feedback currentPage with
    | Except.error e => Except.error e
    | Except.ok _ => Except.ok st1

/-! ## Submit handler (lines 171 to 193) -/

/-- The characters `String.prototype.trim` removes: white space and line
terminators. -/
def isJsSpace (c : Char) : Bool :=
  decide (c.toNat ∈ [9, 10, 11, 12, 13, 32, 0xA0, 0x1680, 0x2028, 0x2029, 0x202F,
      0x205F, 0x3000, 0xFEFF])
    || (decide (0x2000 ≤ c.toNat) && decide (c.toNat ≤ 0x200A))

/-- `String.prototype.trim`. -/
def jsTrim (s : String) : String :=
  String.mk (((s.data.dropWhile isJsSpace).reverse.dropWhile isJsSpace).reverse)

/-- The submit handler (lines 171 to 193). `nameField` and `messageField` are
the values of the two inputs; `freshId`, `now` and `userAgent` stand for
`crypto.randomUUID()`, `new Date().toISOString()` and `navigator.userAgent`. -/
def submit (cfg : Config) (w : World) (currentPage nameField messageField : String)
    (freshId now userAgent : String) : Except JsError World :=
  let name := if jsTrim nameField = "" then "anonymous" else jsTrim nameField
  let message := jsTrim messageField
  if message = "" then Except.ok w
  else
    let entry : Entry :=
      { id := freshId, page := currentPage, name := name, message := message,
        created_at := now, ua := userAgent.take 120 }
    match saveLocal (saveName w.storage name) entry with
    | Except.error e => Except.error e
    | Except.ok st1 =>
      let w1 := syncToSupabase cfg { w with storage := st1 } entry
      match getForPage w1.storage.sdl_feedback currentPage with
      | Except.error e => Except.error e
      | Except.ok _ => Except.ok w1

/-! ## Ordering of timestamps, as the specification words it -/

/-- The shape of a timestamp written by `toISOString` (line 182), a digit being
expected wherever the pattern has `0`. -/
def isoPattern : List Char := "0000-00-00T00:00:00.000Z".data

/-- Whether the characters follow `isoPattern`. -/
def matchesIso (cs : List Char) : Bool :=
  decide (cs.length = isoPattern.length) &&
    (List.zipWith (fun p c => if p = '0' then c.isDigit else decide (c = p)) isoPattern cs).all id

/-- An ordering key for a timestamp in the format the submit handler writes: its
digits read as one number, which grows with the instant denoted; `none` for text
that is not in that format. -/
def timeKey (s : String) : Option Nat :=
  if matchesIso s.data then
    some ((s.data.filter Char.isDigit).foldl (fun n c => 10 * n + (c.toNat - 48)) 0)
  else none

/-- The order the specification asks of `query`: ascending `created_at`, every
entry with a timestamp that cannot be read after all entries with a readable
one. -/
def createdAtLE (a b : Entry) : Prop :=
  match timeKey a.created_at, timeKey b.created_at with
  | some x, some y => x ≤ y
  | some _, none => True
  | none, some _ => False
  | none, none => True

instance createdAtLE_decidable (a b : Entry) : Decidable (createdAtLE a b) := by
  unfold createdAtLE
  split <;> infer_instance

/-! ## Concrete entries used in the examples -/

/-- The local entry of the scenario of the specification (page "day1"). -/
def entryA : Entry :=
  { id := "a", page := "day1", name := "Al", message := "hi",
    created_at := "2024-01-02T00:00:00.000Z", ua := "test" }

/-- The remote-only entry of the scenario of the specification. -/
def entryB : Entry :=
  { id := "b", page := "day1", name := "Bo", message := "yo",
    created_at := "2024-01-01T00:00:00.000Z", ua := "test" }

/-- A second entry that carries the id of `entryA`. -/
def entryA2 : Entry :=
  { id := "a", page := "day1", name := "Al", message := "again",
    created_at := "2024-01-03T00:00:00.000Z", ua := "test" }

/-- An entry of another page. -/
def entryC : Entry :=
  { id := "c", page := "day2", name := "Cy", message := "hm",
    created_at := "not a date", ua := "test" }

/-! ## Lemmas on the storage functions -/

theorem ids_append (L M : List Entry) : ids (L ++ M) = ids L ++ ids M := by
  simp [ids]

theorem saveLocal_stored (L : List Entry) (nm : Option String) (e : Entry) :
    saveLocal (stored L nm) e = Except.ok (stored (L ++ [e]) nm) := rfl

theorem getForPage_stored (L : List Entry) (p : String) :
    getForPage (Slot.json (JsValue.array L)) p
      = Except.ok (L.filter (fun e => decide (e.page = p))) := rfl

theorem foldlM_saveLocal (es L : List Entry) (nm : Option String) :
    es.foldlM saveLocal (stored L nm) = Except.ok (stored (L ++ es) nm) := by
  induction es generalizing L with
  | nil => simp [pure, Except.pure]
  | cons e es ih =>
    rw [List.foldlM_cons, saveLocal_stored]
    show es.foldlM saveLocal (stored (L ++ [e]) nm) = _
    rw [ih]
    simp

/-! ## Lemmas on the merge -/

theorem foldl_push_eq (S : List String) (R acc : List Entry) :
    R.foldl (fun acc e => if e.id ∈ S then acc else acc ++ [e]) acc
      = acc ++ R.filter (fun e => decide (e.id ∉ S)) := by
  induction R generalizing acc with
  | nil => simp
  | cons r rs ih =>
    simp only [List.foldl_cons, ih]
    by_cases h : r.id ∈ S
    · simp [h]
    · simp [h]

theorem mergeRemote_eq (L R : List Entry) :
    mergeRemote L R = L ++ R.filter (fun e => decide (e.id ∉ ids L)) :=
  foldl_push_eq (ids L) R L

theorem mergeRemote_nil (L : List Entry) : mergeRemote L [] = L := rfl

theorem mem_ids_iff (x : String) (L : List Entry) : x ∈ ids L ↔ ∃ e ∈ L, e.id = x := by
  simp [ids]

theorem mem_ids_mergeRemote (L R : List Entry) (x : String) :
    x ∈ ids (mergeRemote L R) ↔ x ∈ ids L ∨ x ∈ ids R := by
  rw [mergeRemote_eq, ids_append, List.mem_append]
  constructor
  · rintro (h | h)
    · exact Or.inl h
    · right
      obtain ⟨e, he, rfl⟩ := (mem_ids_iff _ _).1 h
      exact (mem_ids_iff _ _).2 ⟨e, (List.mem_filter.1 he).1, rfl⟩
  · rintro (h | h)
    · exact Or.inl h
    · by_cases hx : x ∈ ids L
      · exact Or.inl hx
      · right
        obtain ⟨e, he, rfl⟩ := (mem_ids_iff _ _).1 h
        exact (mem_ids_iff _ _).2 ⟨e, List.mem_filter.2 ⟨he, by simpa using hx⟩, rfl⟩

theorem mergeRemote_again (L R : List Entry) :
    mergeRemote (mergeRemote L R) R = mergeRemote L R := by
  conv_lhs => rw [mergeRemote_eq]
  have h : R.filter (fun e => decide (e.id ∉ ids (mergeRemote L R))) = [] := by
    rw [List.filter_eq_nil_iff]
    intro e he
    have : e.id ∈ ids (mergeRemote L R) :=
      (mem_ids_mergeRemote L R e.id).2 (Or.inr ((mem_ids_iff _ _).2 ⟨e, he, rfl⟩))
    simpa using this
  rw [h, List.append_nil]

theorem mergeRemote_nodup (L R : List Entry) (hL : (ids L).Nodup) (hR : (ids R).Nodup) :
    (ids (mergeRemote L R)).Nodup := by
  rw [mergeRemote_eq, ids_append, List.nodup_append]
  refine ⟨hL, ?_, ?_⟩
  · exact hR.sublist (List.Sublist.map _ (List.filter_sublist R))
  · intro x hx hx2
    obtain ⟨e, he, rfl⟩ := (mem_ids_iff _ _).1 hx2
    have := (List.mem_filter.1 he).2
    simp at this
    exact this hx

theorem sync_stored (L : List Entry) (nm : Option String) (R : Option (List Entry)) :
    sync (stored L nm) R = Except.ok (stored (mergeRemote L (R.getD [])) nm) := by
  cases R with
  | none => rfl
  | some R =>
    cases R with
    | nil => rfl
    | cons r rs => rfl

theorem foldlM_sync (Rs : List (Option (List Entry))) (L : List Entry) (nm : Option String) :
    ∃ M, Rs.foldlM sync (stored L nm) = Except.ok (stored M nm) ∧ L <+: M := by
  induction Rs generalizing L with
  | nil => exact ⟨L, by simp [pure, Except.pure], List.prefix_refl L⟩
  | cons R Rs ih =>
    obtain ⟨M, hM, hpre⟩ := ih (mergeRemote L (R.getD []))
    refine ⟨M, ?_, ?_⟩
    · rw [List.foldlM_cons, sync_stored]
      exact hM
    · refine List.IsPrefix.trans ?_ hpre
      rw [mergeRemote_eq]
      exact List.prefix_append _ _

theorem jsTrim_blank (s : String) (h : ∀ c ∈ s.data, isJsSpace c = true) : jsTrim s = "" := by
  have h1 : s.data.dropWhile isJsSpace = [] := by
    rw [List.dropWhile_eq_nil_iff]
    exact h
  simp [jsTrim, h1]

/-! ## Append -/

/-- C1, as stated, fails: with the single entry `entryA` stored (its id is
trivially unique), `saveLocal entryA` is not a no-op; it stores a second entry
with the same id, so the stored ids are no longer pairwise distinct. -/
theorem saveLocal_admits_duplicate_id :
    (ids [entryA]).Nodup ∧
    saveLocal (stored [entryA] none) entryA = Except.ok (stored [entryA, entryA] none) ∧
    stored [entryA, entryA] none ≠ stored [entryA] none ∧
    ¬ (ids [entryA, entryA]).Nodup := by
  refine ⟨by decide, rfl, by decide, by decide⟩

/-- C1 (amended): starting from a stored collection `L` with pairwise distinct
ids, appending the entries `es` one after another with `saveLocal` succeeds and
stores `L` followed by `es`; the stored ids are pairwise distinct exactly when
the ids of `es` are pairwise distinct and none of them was already stored. -/
theorem saveLocal_sequence_unique_iff (L : List Entry) (nm : Option String)
    (es : List Entry) (hL : (ids L).Nodup) :
    es.foldlM saveLocal (stored L nm) = Except.ok (stored (L ++ es) nm) ∧
    ((ids (L ++ es)).Nodup ↔ (ids es).Nodup ∧ ∀ e ∈ es, e.id ∉ ids L) := by
  refine ⟨foldlM_saveLocal es L nm, ?_⟩
  rw [ids_append, List.nodup_append]
  constructor
  · rintro ⟨-, hes, hd⟩
    refine ⟨hes, ?_⟩
    intro e he hmem
    exact hd hmem ((mem_ids_iff _ _).2 ⟨e, he, rfl⟩)
  · rintro ⟨hes, hnot⟩
    refine ⟨hL, hes, ?_⟩
    intro x hx hx2
    obtain ⟨e, he, rfl⟩ := (mem_ids_iff _ _).1 hx2
    exact hnot e he hx

/-- Witness for C1 (amended): appending `entryB` and `entryC` to the stored
`[entryA]` keeps the ids pairwise distinct. -/
theorem saveLocal_sequence_unique_iff_witness :
    (ids [entryA]).Nodup ∧
    [entryB, entryC].foldlM saveLocal (stored [entryA] none)
      = Except.ok (stored [entryA, entryB, entryC] none) ∧
    (ids [entryA, entryB, entryC]).Nodup :=
  ⟨by decide,
   (saveLocal_sequence_unique_iff [entryA] none [entryB, entryC] (by decide)).1,
   (saveLocal_sequence_unique_iff [entryA] none [entryB, entryC] (by decide)).2.2
     ⟨by decide, by decide⟩⟩

/-! ## Reconciliation -/

/-- C2 at a failing input: the local collection `[entryA]` has pairwise distinct
ids, the remote result repeats the id of `entryB`, which is not stored; the
merge of `init` writes `entryB` twice, so the stored ids are not pairwise
distinct. -/
theorem sync_repeated_remote_id_stored_twice :
    (ids [entryA]).Nodup ∧
    sync (stored [entryA] none) (some [entryA, entryB, entryB])
      = Except.ok (stored [entryA, entryB, entryB] none) ∧
    ¬ (ids [entryA, entryB, entryB]).Nodup := by
  refine ⟨by decide, rfl, by decide⟩

/-- C3: for every local collection `L` and every remote result `R` (`none` for
`null`, an empty or a non-empty sequence), the merge of `init` succeeds, and
running it once more on its own result with the same `R` gives that same
result. -/
theorem sync_idempotent (L : List Entry) (nm : Option String) (R : Option (List Entry)) :
    (∃ M, sync (stored L nm) R = Except.ok (stored M nm)) ∧
    (sync (stored L nm) R >>= fun st => sync st R) = sync (stored L nm) R := by
  refine ⟨⟨_, sync_stored L nm R⟩, ?_⟩
  rw [sync_stored]
  show sync (stored (mergeRemote L (R.getD [])) nm) R = _
  rw [sync_stored, mergeRemote_again]

/-- C4: for every local collection `L` and every finite sequence `Rs` of remote
results, running the merge of `init` once per result succeeds, and the stored
collection `M` it ends with has `L` as a prefix (every entry of `L` is kept, in
place and in order); hence for every page `p` the number of entries
`getForPage` returns does not decrease. -/
theorem sync_sequence_monotone (L : List Entry) (nm : Option String)
    (Rs : List (Option (List Entry))) :
    ∃ M, Rs.foldlM sync (stored L nm) = Except.ok (stored M nm) ∧ L <+: M ∧
      ∀ p : String, ∃ q q2,
        getForPage (stored L nm).sdl_feedback p = Except.ok q ∧
        getForPage (stored M nm).sdl_feedback p = Except.ok q2 ∧
        q.Sublist q2 ∧ q.length ≤ q2.length := by
  obtain ⟨M, hM, hpre⟩ := foldlM_sync Rs L nm
  refine ⟨M, hM, hpre, ?_⟩
  intro p
  have hsub : (L.filter (fun e => decide (e.page = p))).Sublist
      (M.filter (fun e => decide (e.page = p))) := hpre.sublist.filter _
  exact ⟨_, _, getForPage_stored L p, getForPage_stored M p, hsub, hsub.length_le⟩

/-- C5: for every local collection `L` and every non-empty remote sequence `R`,
the merge of `init` stores `mergeRemote L R`, whose set of ids is the union of
the ids of `L` and of `R`; when `L` and `R` each have pairwise distinct ids, the
stored collection has as many entries as that union has ids. -/
theorem sync_ids_union (L R : List Entry) (nm : Option String) (hR : R ≠ []) :
    sync (stored L nm) (some R) = Except.ok (stored (mergeRemote L R) nm) ∧
    (ids (mergeRemote L R)).toFinset = (ids L).toFinset ∪ (ids R).toFinset ∧
    ((ids L).Nodup → (ids R).Nodup →
      (mergeRemote L R).length = ((ids L).toFinset ∪ (ids R).toFinset).card) := by
  have hset : (ids (mergeRemote L R)).toFinset = (ids L).toFinset ∪ (ids R).toFinset := by
    ext x
    simp only [List.mem_toFinset, Finset.mem_union]
    exact mem_ids_mergeRemote L R x
  refine ⟨?_, hset, ?_⟩
  · cases R with
    | nil => exact absurd rfl hR
    | cons r rs => rfl
  · intro hL hRn
    rw [← hset, List.toFinset_card_of_nodup (mergeRemote_nodup L R hL hRn)]
    simp [ids]

/-- Witness for C5, the scenario of the specification: local `[entryA]`, remote
`[entryA, entryB]` on page "day1" gives exactly two stored entries, with ids
`a` and `b`. -/
theorem sync_ids_union_witness :
    [entryA, entryB] ≠ [] ∧
    sync (stored [entryA] none) (some [entryA, entryB])
      = Except.ok (stored (mergeRemote [entryA] [entryA, entryB]) none) ∧
    (ids (mergeRemote [entryA] [entryA, entryB])).toFinset = {"a", "b"} ∧
    (mergeRemote [entryA] [entryA, entryB]).length = 2 :=
  ⟨by decide,
   (sync_ids_union [entryA] [entryA, entryB] none (by decide)).1,
   (sync_ids_union [entryA] [entryA, entryB] none (by decide)).2.1.trans (by decide),
   ((sync_ids_union [entryA] [entryA, entryB] none (by decide)).2.2
      (by decide) (by decide)).trans (by decide)⟩

/-- C6: whenever the pull returns `null`, `init` leaves the storage (entries
slot and saved name) exactly as it was and returns normally, for every page and
every storage whose entries slot reads as a collection (absent, unparsable, or
the text of an array); and with the shipped configuration the pull returns
`null` for every page, whatever the network would answer. -/
theorem init_pull_null_unchanged (cfg : Config) (fetch : String → Option (List Entry))
    (st : Storage) (page : String)
    (hst : ∃ L, getAll st.sdl_feedback = JsValue.array L)
    (h : fetchFromSupabase cfg fetch page = none) :
    init cfg fetch st page = Except.ok st ∧
    ∀ (f : String → Option (List Entry)) (p : String),
      fetchFromSupabase shippedConfig f p = none := by
  refine ⟨?_, fun f p => rfl⟩
  obtain ⟨L, hL⟩ := hst
  unfold init
  rw [h]
  show (match getForPage st.sdl_feedback page with
    | Except.error e => Except.error e
    | Except.ok _ => Except.ok st) = Except.ok st
  unfold getForPage
  rw [hL]

/-- Witness for C6: the shipped configuration, a network that would answer
`[entryB]`, and the stored collection `[entryA]`. -/
theorem init_pull_null_unchanged_witness :
    (∃ L, getAll (stored [entryA] (some "Al")).sdl_feedback = JsValue.array L) ∧
    fetchFromSupabase shippedConfig (fun _ => some [entryB]) "day1" = none ∧
    init shippedConfig (fun _ => some [entryB]) (stored [entryA] (some "Al")) "day1"
      = Except.ok (stored [entryA] (some "Al")) :=
  ⟨⟨[entryA], rfl⟩, rfl,
   (init_pull_null_unchanged shippedConfig (fun _ => some [entryB])
      (stored [entryA] (some "Al")) "day1" ⟨[entryA], rfl⟩ rfl).1⟩

/-! ## Query -/

/-- C7, as stated, fails: with `entryA` (2 January) stored before `entryB`
(1 January), both of page "day1" and both with a readable timestamp,
`getForPage` returns `entryA` before `entryB`, which is not ascending
`created_at` order. -/
theorem getForPage_not_sorted_by_created_at :
    getForPage (stored [entryA, entryB] none).sdl_feedback "day1"
      = Except.ok [entryA, entryB] ∧
    timeKey entryA.created_at = some 20240102000000000 ∧
    timeKey entryB.created_at = some 20240101000000000 ∧
    ¬ List.Pairwise createdAtLE [entryA, entryB] := by
  refine ⟨rfl, by decide, by decide, by decide⟩

/-- C7 (amended): for every stored collection `L` and page `p`, `getForPage`
returns the entries of `L` whose page is `p`, each as often as it is stored and
in the order in which they are stored; no sorting takes place. -/
theorem query_returns_page_entries_in_stored_order (L : List Entry) (nm : Option String) (p : String) :
    getForPage (stored L nm).sdl_feedback p
      = Except.ok (L.filter (fun e => decide (e.page = p))) ∧
    (L.filter (fun e => decide (e.page = p))).Sublist L ∧
    (∀ e, e ∈ L.filter (fun e => decide (e.page = p)) ↔ e ∈ L ∧ e.page = p) ∧
    (∀ e, (L.filter (fun e => decide (e.page = p))).count e
      = if e.page = p then L.count e else 0) := by
  refine ⟨rfl, List.filter_sublist L, ?_, ?_⟩
  · intro e
    simp [List.mem_filter]
  · intro e
    by_cases he : e.page = p
    · rw [if_pos he, List.count_filter]
      simpa using he
    · rw [if_neg he, List.count_eq_zero]
      intro hmem
      exact he (by simpa using (List.mem_filter.1 hmem).2)

/-- C8, as stated, fails when the id was stored before: with `entryA` stored,
appending `entryA2` (same id, same page "day1") makes `getForPage "day1"` return
two entries with that id. -/
theorem append_stored_id_then_query_twice :
    (ids [entryA]).Nodup ∧ entryA2.page = "day1" ∧ entryA2.id ∈ ids [entryA] ∧
    (saveLocal (stored [entryA] none) entryA2 >>= fun st => getForPage st.sdl_feedback "day1")
      = Except.ok [entryA, entryA2] ∧
    ([entryA, entryA2].filter (fun x => decide (x.id = entryA2.id))).length = 2 := by
  refine ⟨by decide, rfl, by decide, rfl, by decide⟩

/-- C8 (amended): for every stored collection `L` and every entry `e`, after
`saveLocal e` the result of `getForPage e.page` is the earlier result followed
by `e`, so `e` is included; the entries in it with the id of `e` are exactly
`[e]` if and only if no stored entry had both the id and the page of `e`, in
particular whenever the id of `e` was not stored before. -/
theorem append_then_query_once (L : List Entry) (nm : Option String) (e : Entry) :
    ∃ q, (saveLocal (stored L nm) e >>= fun st => getForPage st.sdl_feedback e.page)
        = Except.ok q ∧
      q = L.filter (fun x => decide (x.page = e.page)) ++ [e] ∧
      e ∈ q ∧
      (q.filter (fun x => decide (x.id = e.id)) = [e] ↔
        ∀ x ∈ L, ¬ (x.id = e.id ∧ x.page = e.page)) ∧
      (e.id ∉ ids L → q.filter (fun x => decide (x.id = e.id)) = [e]) := by
  have hq : (saveLocal (stored L nm) e >>= fun st => getForPage st.sdl_feedback e.page)
      = Except.ok (L.filter (fun x => decide (x.page = e.page)) ++ [e]) := by
    rw [saveLocal_stored]
    show getForPage (Slot.json (JsValue.array (L ++ [e]))) e.page = _
    rw [getForPage_stored]
    simp
  have hiff : (L.filter (fun x => decide (x.page = e.page)) ++ [e]).filter
        (fun x => decide (x.id = e.id)) = [e] ↔
      ∀ x ∈ L, ¬ (x.id = e.id ∧ x.page = e.page) := by
    rw [List.filter_append, List.filter_filter]
    have he : [e].filter (fun x => decide (x.id = e.id)) = [e] := by simp
    rw [he, List.append_left_eq_self, List.filter_eq_nil_iff]
    constructor
    · intro h x hx hc
      exact h x hx (by simp [hc.1, hc.2])
    · intro h x hx hc
      simp at hc
      exact h x hx hc
  refine ⟨_, hq, rfl, by simp, hiff, ?_⟩
  intro hnot
  refine hiff.2 ?_
  intro x hx hc
  exact hnot ((mem_ids_iff _ _).2 ⟨x, hx, hc.1⟩)

/-- Witness for C8 (amended): `entryB`, whose id is not stored, appended to the
stored `[entryA, entryC]`. -/
theorem append_then_query_once_witness :
    entryB.id ∉ ids [entryA, entryC] ∧
    (saveLocal (stored [entryA, entryC] none) entryB
        >>= fun st => getForPage st.sdl_feedback entryB.page) = Except.ok [entryA, entryB] ∧
    [entryA, entryB].filter (fun x => decide (x.id = entryB.id)) = [entryB] := by
  obtain ⟨q, hq, hdef, -, -, h⟩ := append_then_query_once [entryA, entryC] none entryB
  have hval : q = [entryA, entryB] := hdef.trans (by decide)
  subst hval
  exact ⟨by decide, hq, h (by decide)⟩

/-! ## Submit -/

/-- C9: for every configuration, state (stored entries, saved name, record of
gateway calls), page and name field, a submit whose message field is empty or
holds only characters that `trim` removes returns with the state unchanged: no
entry is stored, the saved name is not written, and neither `syncToSupabase`
is called nor a request issued. -/
theorem submit_blank_message_no_effect (cfg : Config) (w : World)
    (currentPage nameField messageField freshId now userAgent : String)
    (h : ∀ c ∈ messageField.data, isJsSpace c = true) :
    submit cfg w currentPage nameField messageField freshId now userAgent = Except.ok w := by
  have hm : jsTrim messageField = "" := jsTrim_blank messageField h
  unfold submit
  simp only [hm]
  rfl

/-- Witness for C9: the scenario of the specification (empty name and message on
page "day2") and a message of blanks, with a configured gateway. -/
theorem submit_blank_message_no_effect_witness :
    (∀ c ∈ "".data, isJsSpace c = true) ∧
    (∀ c ∈ " \t\n ".data, isJsSpace c = true) ∧
    submit shippedConfig ⟨stored [entryA] none, [], []⟩ "day2" "" "" "id1"
        "2024-01-05T00:00:00.000Z" "agent"
      = Except.ok ⟨stored [entryA] none, [], []⟩ ∧
    submit ⟨some "https://x.supabase.co", some "key"⟩ ⟨stored [entryA] (some "Al"), [], []⟩
        "day2" "Bo" " \t\n " "id1" "2024-01-05T00:00:00.000Z" "agent"
      = Except.ok ⟨stored [entryA] (some "Al"), [], []⟩ :=
  ⟨by decide, by decide,
   submit_blank_message_no_effect shippedConfig ⟨stored [entryA] none, [], []⟩ "day2" "" ""
     "id1" "2024-01-05T00:00:00.000Z" "agent" (by decide),
   submit_blank_message_no_effect ⟨some "https://x.supabase.co", some "key"⟩
     ⟨stored [entryA] (some "Al"), [], []⟩ "day2" "Bo" " \t\n " "id1"
     "2024-01-05T00:00:00.000Z" "agent" (by decide)⟩

/-! ## Reading the entries slot -/

/-- C10 at failing inputs: an absent slot and a slot whose text is not JSON are
read as the empty collection, but when the slot holds the JSON text of `null`,
of a number or of an object, `getAll` returns that value, not the empty
collection, and `getForPage` raises a `TypeError` for every page. -/
theorem getForPage_non_array_slot_throws :
    (∀ p, getForPage Slot.absent p = Except.ok []) ∧
    (∀ raw p, getForPage (Slot.invalid raw) p = Except.ok []) ∧
    getAll (Slot.json JsValue.null) = JsValue.null ∧
    getAll (Slot.json JsValue.null) ≠ JsValue.array [] ∧
    (∀ p, getForPage (Slot.json JsValue.null) p = Except.error JsError.typeError) ∧
    (∀ p, getForPage (Slot.json (JsValue.number 5)) p = Except.error JsError.typeError) ∧
    (∀ p, getForPage (Slot.json JsValue.object) p = Except.error JsError.typeError) := by
  refine ⟨fun _ => rfl, fun _ _ => rfl, rfl, by decide, fun _ => rfl, fun _ => rfl,
    fun _ => rfl⟩

end Feedback
